import Mathlib

/-!
Shallow embedding of `httpcore/_backends/sync.py`: the synchronous socket
backend (`SyncSocketStream` and `SyncBackend.open_tcp_stream`).

Modelling choices:
* Byte sequences are `List Nat` (`Bytes`); a byte is ASCII iff it is `< 128`.
* Timeouts are `Option Nat` (`none` models Python `None`, i.e. block
  indefinitely); the numeric value is opaque, only looked up and passed on.
* The `timeout` argument (Python `Dict[str, Optional[float]]`) is an
  association list; `tget` models `dict.get(key)`, which yields `None` both
  for a missing key and for a key stored with value `None`.
* The operating system / network is an explicit oracle: `recv` takes a
  `RecvRes`, each iteration of the `send` loop consumes one `SendRes` from a
  list, `open_tcp_stream` takes a `ConnectOracle`.  Transport system calls
  (`connect`, `recv`, `send`, `close`, the TLS handshake) can only raise
  `socket.timeout` or `socket.error` (`OSError`), which is what the oracle
  result types encode.  Operations on a socket whose handle has been closed
  raise `socket.error` (CPython: `OSError EBADF`) regardless of the oracle.
* Every operation returns, besides its Python result, a trace
  (`List TraceEvt`) of the lock operations and system calls it performed, in
  order.  A Python `with lock:` block is modelled by wrapping the body's
  trace in acquire/release events: the `with` statement releases on every
  exit path, normal or raising.
* Python exceptions are the `PyExc` type: the low-level exceptions relevant
  to this code (`socket.timeout`, `socket.error`, `UnicodeDecodeError`,
  `ValueError`) plus the seven semantic `httpcore` exception kinds.
-/

set_option autoImplicit false

abbrev Bytes := List Nat

/-- The seven semantic error kinds of `httpcore._exceptions`. -/
inductive HttpcoreError where
  | ConnectError
  | ConnectTimeout
  | ReadError
  | ReadTimeout
  | WriteError
  | WriteTimeout
  | CloseError
deriving DecidableEq, Repr

/-- Python exceptions that can cross this layer: low-level platform
exceptions and the semantic `httpcore` kinds.  `timeout` is
`socket.timeout`, `oserror` is `socket.error` (= `OSError`), `decodeError`
is `UnicodeDecodeError` (a `ValueError`, not an `OSError`), `valueError`
covers e.g. `select` refusing a closed (negative) file descriptor. -/
inductive PyExc where
  | timeout
  | oserror
  | decodeError
  | valueError
  | httpcore (e : HttpcoreError)
deriving DecidableEq, Repr

/-- An OS-level socket handle: its descriptor and whether it was closed. -/
structure Socket where
  fd : Nat
  closed : Bool
deriving DecidableEq, Repr

/-- Opaque TLS configuration capability (`ssl.SSLContext`); this layer never
inspects it, it only invokes the handshake upgrade through it. -/
structure SSLContext where
  mk ::
deriving DecidableEq, Repr, Inhabited

/-- Stream state `SyncSocketStream`: one exclusively-owned socket plus a read-exclusion
lock and a write-exclusion lock (`threading.Lock()`, created unheld in
`__init__`).  The booleans record whether each lock is currently held. -/
structure SyncSocketStream where
  sock : Socket
  readLockHeld : Bool
  writeLockHeld : Bool
deriving DecidableEq, Repr

/-- The per-call timeout mapping `Dict[str, Optional[float]]`. -/
abbrev TimeoutDict := List (String × Option Nat)

/-- Python `d.get(key)`: `None` for a missing key and the stored value
otherwise (which may itself be `None`). -/
def tget (t : TimeoutDict) (k : String) : Option Nat :=
  (List.lookup k t).getD none

/-- Trace of what an operation did, in order: lock acquisitions/releases and
system calls.  `sendEvt fd req acc` records a `send` call on descriptor
`fd` handed the remaining buffer `req`, of which the transport accepted the
chunk `acc` (empty when the call raised).  `selectEvt fd p` records
`select.select([fd], [], [], p)`. -/
inductive TraceEvt where
  | acqRead
  | relRead
  | acqWrite
  | relWrite
  | settimeoutEvt (fd : Nat) (v : Option Nat)
  | recvEvt (fd : Nat) (n : Nat)
  | sendEvt (fd : Nat) (req : Bytes) (acc : Bytes)
  | closeEvt (fd : Nat)
  | connectEvt (fd : Nat) (host : Bytes) (port : Nat)
  | wrapEvt (fd : Nat) (serverHostname : Bytes)
  | createEvt (fd : Nat)
  | selectEvt (fd : Nat) (poll : Nat)
deriving DecidableEq, Repr

/-- Modelled from the spec: `map_exceptions` (defined in
`httpcore/_exceptions.py`, which is outside the provided sources) is the
"scoped translation boundary (catch low-level failure, remap, rethrow)
wrapped around every transport call site": a low-level exception that the
given map classifies is re-raised as the mapped semantic kind; an exception
the map does not cover propagates unchanged. -/
def map_exceptions {α : Type} (m : PyExc → Option HttpcoreError)
    (r : Except PyExc α) : Except PyExc α :=
  match r with
  | .ok a => .ok a
  | .error e =>
    match m e with
    | some h => .error (.httpcore h)
    | none => .error e

/-- Map `{socket.timeout: ReadTimeout, socket.error: ReadError}`: the dict is
ordered, so a `socket.timeout` (itself a subclass of `socket.error`) is
matched by its own entry first. -/
def readExcMap : PyExc → Option HttpcoreError
  | .timeout => some .ReadTimeout
  | .oserror => some .ReadError
  | _ => none

/-- Map `{socket.timeout: WriteTimeout, socket.error: WriteError}`. -/
def writeExcMap : PyExc → Option HttpcoreError
  | .timeout => some .WriteTimeout
  | .oserror => some .WriteError
  | _ => none

/-- Map `{socket.timeout: ConnectTimeout, socket.error: ConnectError}`. -/
def connectExcMap : PyExc → Option HttpcoreError
  | .timeout => some .ConnectTimeout
  | .oserror => some .ConnectError
  | _ => none

/-- Map `{socket.error: CloseError}`: `socket.timeout` is a subclass of
`socket.error`, so it too would be mapped to `CloseError` here. -/
def closeExcMap : PyExc → Option HttpcoreError
  | .timeout => some .CloseError
  | .oserror => some .CloseError
  | _ => none

/-- Outcome of one `sock.recv(n)` call supplied by the environment. -/
inductive RecvRes where
  | ok (bs : Bytes)
  | timeout
  | error
deriving DecidableEq, Repr

/-- Outcome of one `sock.send(data)` call supplied by the environment:
the transport accepts `n` bytes, or the call times out / fails. -/
inductive SendRes where
  | ok (n : Nat)
  | timeout
  | error
deriving DecidableEq, Repr

/-- Outcome of `sock.close()` at the OS level. -/
inductive CloseRes where
  | ok
  | error
deriving DecidableEq, Repr

/-- Operation `SyncSocketStream.read`: look up the `read` timeout, then under the read
lock and the read exception map, apply the timeout to the socket and
`recv` up to `n` bytes.  `recv` on a closed handle raises `socket.error`. -/
def SyncSocketStream.read (st : SyncSocketStream) (n : Nat) (t : TimeoutDict)
    (res : RecvRes) : Except PyExc Bytes × List TraceEvt :=
  let read_timeout := tget t "read"
  let tr0 : List TraceEvt :=
    [.settimeoutEvt st.sock.fd read_timeout, .recvEvt st.sock.fd n]
  let inner : Except PyExc Bytes :=
    if st.sock.closed then .error .oserror
    else
      match res with
      | .ok bs => .ok (bs.take n)
      | .timeout => .error .timeout
      | .error => .error .oserror
  (map_exceptions readExcMap inner, .acqRead :: tr0 ++ [.relRead])

/-- The body of `SyncSocketStream.write`: `while data: settimeout(wt);
n = send(data); data = data[n:]`.  Each iteration consumes one oracle
event; an exhausted oracle with data still pending models a loop that is
still blocked inside `send` (result `none`).  `send` on a closed handle
raises `socket.error` without consulting the oracle. -/
def sendLoop (sock : Socket) (wt : Option Nat) :
    List SendRes → Bytes → Option (Except PyExc Unit) × List TraceEvt
  | _, [] => (some (.ok ()), [])
  | evs, b :: bs =>
    let d := b :: bs
    if sock.closed then
      (some (.error .oserror),
        [.settimeoutEvt sock.fd wt, .sendEvt sock.fd d []])
    else
      match evs with
      | [] => (none, [.settimeoutEvt sock.fd wt])
      | e :: rest =>
        match e with
        | .timeout =>
          (some (.error .timeout),
            [.settimeoutEvt sock.fd wt, .sendEvt sock.fd d []])
        | .error =>
          (some (.error .oserror),
            [.settimeoutEvt sock.fd wt, .sendEvt sock.fd d []])
        | .ok n =>
          let k := min n d.length
          let r := sendLoop sock wt rest (d.drop k)
          (r.1, .settimeoutEvt sock.fd wt :: .sendEvt sock.fd d (d.take k) :: r.2)

/-- Operation `SyncSocketStream.write`: look up the `write` timeout once, then under
the write lock and the write exception map run the send loop.  The lock is
released on every exit path; while the loop is still blocked (oracle
exhausted) there is no exit and no release. -/
def SyncSocketStream.write (st : SyncSocketStream) (d : Bytes)
    (t : TimeoutDict) (evs : List SendRes) :
    Option (Except PyExc Unit) × List TraceEvt :=
  let write_timeout := tget t "write"
  let inner := sendLoop st.sock write_timeout evs d
  match inner.1 with
  | some r =>
    (some (map_exceptions writeExcMap r), .acqWrite :: inner.2 ++ [.relWrite])
  | none => (none, .acqWrite :: inner.2)

/-- Operation `SyncSocketStream.close`: under the write lock and the close exception
map, `sock.close()`.  Closing an already-closed Python socket is a no-op;
otherwise the OS-level outcome comes from the oracle.  The handle is
invalid afterwards in either case; the updated stream is returned. -/
def SyncSocketStream.close (st : SyncSocketStream) (res : CloseRes) :
    (Except PyExc Unit × SyncSocketStream) × List TraceEvt :=
  let sock' : Socket := { st.sock with closed := true }
  let st' : SyncSocketStream := { st with sock := sock' }
  let inner : Except PyExc Unit :=
    if st.sock.closed then .ok ()
    else
      match res with
      | .ok => .ok ()
      | .error => .error .oserror
  ((map_exceptions closeExcMap inner, st'),
    .acqWrite :: [.closeEvt st.sock.fd] ++ [.relWrite])

/-- Operation `SyncSocketStream.is_connection_dropped`:
`select.select([sock], [], [], 0)` — a poll with timeout `0`, taking no
lock.  `readable` is the environment's answer (is there data pending?).
On a closed socket object the descriptor is `-1` and CPython's `select`
raises `ValueError`, which no exception map surrounds. -/
def SyncSocketStream.is_connection_dropped (st : SyncSocketStream)
    (readable : Bool) : Except PyExc Bool × List TraceEvt :=
  if st.sock.closed then (.error .valueError, [.selectEvt st.sock.fd 0])
  else (.ok readable, [.selectEvt st.sock.fd 0])

/-- Model of `hostname.decode("ascii")`: succeeds (on the same byte content) iff
every byte is below `128`, else raises `UnicodeDecodeError`. -/
def decodeAscii (bs : Bytes) : Option Bytes :=
  if bs.all (fun b => b < 128) then some bs else none

/-- Environment oracle for `open_tcp_stream`: the outcome of
`socket.socket(...)` (a fresh descriptor, or `OSError`). -/
inductive CreateRes where
  | ok (fd : Nat)
  | error
deriving DecidableEq, Repr

/-- Outcome of `sock.connect(...)`. -/
inductive ConnRes where
  | ok
  | timeout
  | error
deriving DecidableEq, Repr

/-- Outcome of `ssl_context.wrap_socket(...)`: the handshake yields a new
(encrypted) socket handle, times out, or fails. -/
inductive WrapRes where
  | ok (fd : Nat)
  | timeout
  | error
deriving DecidableEq, Repr

structure ConnectOracle where
  create : CreateRes
  conn : ConnRes
  wrap : WrapRes
deriving DecidableEq, Repr

/-- Operation `SyncBackend.open_tcp_stream`: look up the `connect` timeout; under the
connect exception map create a socket, apply the timeout, connect to
`(hostname.decode("ascii"), port)`, optionally upgrade via
`ssl_context.wrap_socket(sock, server_hostname=hostname.decode("ascii"))`,
and wrap the resulting handle in a fresh `SyncSocketStream`.  The decode
runs when the `connect` argument is built, i.e. after socket creation and
before the connect system call. -/
def SyncBackend.open_tcp_stream (hostname : Bytes) (port : Nat)
    (ssl_context : Option SSLContext) (t : TimeoutDict) (o : ConnectOracle) :
    Except PyExc SyncSocketStream × List TraceEvt :=
  let connect_timeout := tget t "connect"
  let inner : Except PyExc SyncSocketStream × List TraceEvt :=
    match o.create with
    | .error => (.error .oserror, [])
    | .ok fd =>
      let sock : Socket := ⟨fd, false⟩
      let tr0 : List TraceEvt :=
        [.createEvt fd, .settimeoutEvt fd connect_timeout]
      match decodeAscii hostname with
      | none => (.error .decodeError, tr0)
      | some host =>
        let tr1 := tr0 ++ [TraceEvt.connectEvt fd host port]
        match o.conn with
        | .timeout => (.error .timeout, tr1)
        | .error => (.error .oserror, tr1)
        | .ok =>
          match ssl_context with
          | none => (.ok ⟨sock, false, false⟩, tr1)
          | some _ =>
            let tr2 := tr1 ++ [TraceEvt.wrapEvt fd host]
            match o.wrap with
            | .timeout => (.error .timeout, tr2)
            | .error => (.error .oserror, tr2)
            | .ok fd2 => (.ok ⟨⟨fd2, false⟩, false, false⟩, tr2)
  (map_exceptions connectExcMap inner.1, inner.2)

/-- The bytes an operation handed to the transport, read off its trace:
the accepted chunk of each `send` call, concatenated in order. -/
def acceptedOf : TraceEvt → Bytes
  | .sendEvt _ _ acc => acc
  | _ => []

def handedBytes (tr : List TraceEvt) : Bytes :=
  (tr.map acceptedOf).flatten

/-- The timeout values applied to the handle in a trace, in order. -/
def settimeoutVals (tr : List TraceEvt) : List (Option Nat) :=
  tr.filterMap (fun e =>
    match e with
    | .settimeoutEvt _ v => some v
    | _ => none)

def isLockEvt : TraceEvt → Bool
  | .acqRead => true
  | .relRead => true
  | .acqWrite => true
  | .relWrite => true
  | _ => false

def isConnectEvt : TraceEvt → Bool
  | .connectEvt _ _ _ => true
  | _ => false

/-- Did this operation raise (any) exception? -/
def exceptRaised {α : Type} : Except PyExc α → Bool
  | .ok _ => false
  | .error _ => true

/-! ### Unfolding lemmas for the send loop -/

theorem sendLoop_nil_data (sock : Socket) (wt : Option Nat) (evs : List SendRes) :
    sendLoop sock wt evs [] = (some (.ok ()), []) := by
  cases evs <;> rfl

theorem sendLoop_cons_closed (sock : Socket) (wt : Option Nat) (evs : List SendRes)
    (b : Nat) (bs : Bytes) (h : sock.closed = true) :
    sendLoop sock wt evs (b :: bs) =
      (some (.error .oserror),
        [.settimeoutEvt sock.fd wt, .sendEvt sock.fd (b :: bs) []]) := by
  cases evs <;> simp [sendLoop, h]

theorem sendLoop_cons_exhausted (sock : Socket) (wt : Option Nat)
    (b : Nat) (bs : Bytes) (h : sock.closed = false) :
    sendLoop sock wt [] (b :: bs) = (none, [.settimeoutEvt sock.fd wt]) := by
  simp [sendLoop, h]

theorem sendLoop_cons_timeout (sock : Socket) (wt : Option Nat)
    (rest : List SendRes) (b : Nat) (bs : Bytes) (h : sock.closed = false) :
    sendLoop sock wt (.timeout :: rest) (b :: bs) =
      (some (.error .timeout),
        [.settimeoutEvt sock.fd wt, .sendEvt sock.fd (b :: bs) []]) := by
  simp [sendLoop, h]

theorem sendLoop_cons_error (sock : Socket) (wt : Option Nat)
    (rest : List SendRes) (b : Nat) (bs : Bytes) (h : sock.closed = false) :
    sendLoop sock wt (.error :: rest) (b :: bs) =
      (some (.error .oserror),
        [.settimeoutEvt sock.fd wt, .sendEvt sock.fd (b :: bs) []]) := by
  simp [sendLoop, h]

theorem sendLoop_cons_ok (sock : Socket) (wt : Option Nat)
    (rest : List SendRes) (n b : Nat) (bs : Bytes) (h : sock.closed = false) :
    sendLoop sock wt (.ok n :: rest) (b :: bs) =
      ((sendLoop sock wt rest ((b :: bs).drop (min n (b :: bs).length))).1,
        .settimeoutEvt sock.fd wt ::
          .sendEvt sock.fd (b :: bs) ((b :: bs).take (min n (b :: bs).length)) ::
          (sendLoop sock wt rest ((b :: bs).drop (min n (b :: bs).length))).2) := by
  simp [sendLoop, h]

/-! ### Structural facts about the send loop -/

theorem handedBytes_nil : handedBytes [] = [] := rfl

theorem handedBytes_cons (e : TraceEvt) (tr : List TraceEvt) :
    handedBytes (e :: tr) = acceptedOf e ++ handedBytes tr := by
  simp [handedBytes]

theorem handedBytes_append (a b : List TraceEvt) :
    handedBytes (a ++ b) = handedBytes a ++ handedBytes b := by
  simp [handedBytes]

/-- If the send loop returns successfully, the accepted chunks recorded in
its trace concatenate to exactly the input buffer. -/
theorem sendLoop_ok_handed (sock : Socket) (wt : Option Nat) :
    ∀ (evs : List SendRes) (d : Bytes) (tr : List TraceEvt),
      sendLoop sock wt evs d = (some (.ok ()), tr) → handedBytes tr = d := by
  intro evs
  induction evs with
  | nil =>
    intro d tr h
    cases d with
    | nil =>
      rw [sendLoop_nil_data] at h
      obtain ⟨-, h2⟩ := Prod.mk.injEq .. ▸ h
      simp [← h2, handedBytes_nil]
    | cons b bs =>
      cases hc : sock.closed with
      | false => rw [sendLoop_cons_exhausted sock wt b bs hc] at h; simp at h
      | true => rw [sendLoop_cons_closed sock wt [] b bs hc] at h; simp at h
  | cons e rest ih =>
    intro d tr h
    cases d with
    | nil =>
      rw [sendLoop_nil_data] at h
      obtain ⟨-, h2⟩ := Prod.mk.injEq .. ▸ h
      simp [← h2, handedBytes_nil]
    | cons b bs =>
      cases hc : sock.closed with
      | true => rw [sendLoop_cons_closed sock wt (e :: rest) b bs hc] at h; simp at h
      | false =>
        cases e with
        | timeout => rw [sendLoop_cons_timeout sock wt rest b bs hc] at h; simp at h
        | error => rw [sendLoop_cons_error sock wt rest b bs hc] at h; simp at h
        | ok n =>
          rw [sendLoop_cons_ok sock wt rest n b bs hc] at h
          set k := min n (b :: bs).length with hk
          set r := sendLoop sock wt rest ((b :: bs).drop k) with hr
          have h1 : r.1 = some (.ok ()) := by
            have := congrArg Prod.fst h
            simpa using this
          have h2 : tr = .settimeoutEvt sock.fd wt ::
              .sendEvt sock.fd (b :: bs) ((b :: bs).take k) :: r.2 := by
            have := congrArg Prod.snd h
            simpa using this.symm
          have hrec : handedBytes r.2 = (b :: bs).drop k :=
            ih _ _ (by rw [← hr]; exact Prod.ext h1 rfl)
          rw [h2, handedBytes_cons, handedBytes_cons, hrec]
          simp [acceptedOf]

/-- Every timeout value the send loop applies to the handle is the one
`write` timeout it was given. -/
theorem sendLoop_settimeout_vals (sock : Socket) (wt : Option Nat) :
    ∀ (evs : List SendRes) (d : Bytes) (v : Option Nat),
      v ∈ settimeoutVals (sendLoop sock wt evs d).2 → v = wt := by
  intro evs
  induction evs with
  | nil =>
    intro d v h
    cases d with
    | nil => rw [sendLoop_nil_data] at h; simp [settimeoutVals] at h
    | cons b bs =>
      cases hc : sock.closed with
      | false =>
        rw [sendLoop_cons_exhausted sock wt b bs hc] at h
        simpa [settimeoutVals] using h
      | true =>
        rw [sendLoop_cons_closed sock wt [] b bs hc] at h
        simpa [settimeoutVals] using h
  | cons e rest ih =>
    intro d v h
    cases d with
    | nil => rw [sendLoop_nil_data] at h; simp [settimeoutVals] at h
    | cons b bs =>
      cases hc : sock.closed with
      | true =>
        rw [sendLoop_cons_closed sock wt (e :: rest) b bs hc] at h
        simpa [settimeoutVals] using h
      | false =>
        cases e with
        | timeout =>
          rw [sendLoop_cons_timeout sock wt rest b bs hc] at h
          simpa [settimeoutVals] using h
        | error =>
          rw [sendLoop_cons_error sock wt rest b bs hc] at h
          simpa [settimeoutVals] using h
        | ok n =>
          rw [sendLoop_cons_ok sock wt rest n b bs hc] at h
          simp [settimeoutVals] at h
          rcases h with h | h
          · exact h
          · exact ih _ _ (by simpa [settimeoutVals] using h)

/-- The send loop performs no lock operation of its own. -/
theorem sendLoop_no_lock (sock : Socket) (wt : Option Nat) :
    ∀ (evs : List SendRes) (d : Bytes) (e : TraceEvt),
      e ∈ (sendLoop sock wt evs d).2 → isLockEvt e = false := by
  intro evs
  induction evs with
  | nil =>
    intro d e he
    cases d with
    | nil => rw [sendLoop_nil_data] at he; simp at he
    | cons b bs =>
      cases hc : sock.closed with
      | false =>
        rw [sendLoop_cons_exhausted sock wt b bs hc] at he
        simp at he
        simp [he, isLockEvt]
      | true =>
        rw [sendLoop_cons_closed sock wt [] b bs hc] at he
        simp at he
        rcases he with he | he <;> simp [he, isLockEvt]
  | cons ev rest ih =>
    intro d e he
    cases d with
    | nil => rw [sendLoop_nil_data] at he; simp at he
    | cons b bs =>
      cases hc : sock.closed with
      | true =>
        rw [sendLoop_cons_closed sock wt (ev :: rest) b bs hc] at he
        simp at he
        rcases he with he | he <;> simp [he, isLockEvt]
      | false =>
        cases ev with
        | timeout =>
          rw [sendLoop_cons_timeout sock wt rest b bs hc] at he
          simp at he
          rcases he with he | he <;> simp [he, isLockEvt]
        | error =>
          rw [sendLoop_cons_error sock wt rest b bs hc] at he
          simp at he
          rcases he with he | he <;> simp [he, isLockEvt]
        | ok n =>
          rw [sendLoop_cons_ok sock wt rest n b bs hc] at he
          simp at he
          rcases he with he | he | he
          · simp [he, isLockEvt]
          · simp [he, isLockEvt]
          · exact ih _ _ he

/-- The only low-level exceptions the send loop can raise are
`socket.timeout` and `socket.error`. -/
theorem sendLoop_error_kinds (sock : Socket) (wt : Option Nat) :
    ∀ (evs : List SendRes) (d : Bytes) (e : PyExc),
      (sendLoop sock wt evs d).1 = some (.error e) →
      e = .timeout ∨ e = .oserror := by
  intro evs
  induction evs with
  | nil =>
    intro d e h
    cases d with
    | nil => rw [sendLoop_nil_data] at h; simp at h
    | cons b bs =>
      cases hc : sock.closed with
      | false => rw [sendLoop_cons_exhausted sock wt b bs hc] at h; simp at h
      | true =>
        rw [sendLoop_cons_closed sock wt [] b bs hc] at h
        simp at h
        exact Or.inr h.symm
  | cons ev rest ih =>
    intro d e h
    cases d with
    | nil => rw [sendLoop_nil_data] at h; simp at h
    | cons b bs =>
      cases hc : sock.closed with
      | true =>
        rw [sendLoop_cons_closed sock wt (ev :: rest) b bs hc] at h
        simp at h
        exact Or.inr h.symm
      | false =>
        cases ev with
        | timeout =>
          rw [sendLoop_cons_timeout sock wt rest b bs hc] at h
          simp at h
          exact Or.inl h.symm
        | error =>
          rw [sendLoop_cons_error sock wt rest b bs hc] at h
          simp at h
          exact Or.inr h.symm
        | ok n =>
          rw [sendLoop_cons_ok sock wt rest n b bs hc] at h
          exact ih _ _ (by simpa using h)

/-! ### Facts about the exception-translation boundary -/

theorem map_exceptions_ok_iff {α : Type} (m : PyExc → Option HttpcoreError)
    (r : Except PyExc α) (a : α) :
    map_exceptions m r = .ok a ↔ r = .ok a := by
  cases r with
  | ok b => simp [map_exceptions]
  | error e => cases hm : m e <;> simp [map_exceptions, hm]

theorem map_exceptions_error_cases {α : Type} (m : PyExc → Option HttpcoreError)
    (r : Except PyExc α) (e : PyExc) (h : map_exceptions m r = .error e) :
    ∃ e0, r = .error e0 ∧
      ((m e0 = none ∧ e = e0) ∨ ∃ h0, m e0 = some h0 ∧ e = .httpcore h0) := by
  cases r with
  | ok b => simp [map_exceptions] at h
  | error e0 =>
    refine ⟨e0, rfl, ?_⟩
    cases hm : m e0 with
    | none =>
      rw [map_exceptions, hm] at h
      exact Or.inl ⟨rfl, (Except.error.injEq .. ▸ h).symm⟩
    | some h0 =>
      rw [map_exceptions, hm] at h
      exact Or.inr ⟨h0, rfl, (Except.error.injEq .. ▸ h).symm⟩

/-- Unfolding equation for `SyncSocketStream.write`. -/
theorem write_eq (st : SyncSocketStream) (d : Bytes) (t : TimeoutDict)
    (evs : List SendRes) :
    SyncSocketStream.write st d t evs =
      match (sendLoop st.sock (tget t "write") evs d).1 with
      | some r =>
        (some (map_exceptions writeExcMap r),
          .acqWrite :: (sendLoop st.sock (tget t "write") evs d).2 ++ [.relWrite])
      | none => (none, .acqWrite :: (sendLoop st.sock (tget t "write") evs d).2) :=
  rfl

/-! ### The claims -/

/-- C1: whenever `write(data, deadlines)` returns successfully, the chunks
the transport accepted — read off the operation's trace — concatenate to
exactly `data`: the whole buffer was handed to the transport once, in
order, with no truncation and no duplication. -/
theorem write_success_hands_over_exactly (st : SyncSocketStream) (d : Bytes)
    (t : TimeoutDict) (evs : List SendRes) (tr : List TraceEvt)
    (h : SyncSocketStream.write st d t evs = (some (.ok ()), tr)) :
    handedBytes tr = d := by
  rw [write_eq] at h
  rcases hsl : sendLoop st.sock (tget t "write") evs d with ⟨o, tr'⟩
  rw [hsl] at h
  cases o with
  | none => simp at h
  | some r =>
    simp only [Prod.mk.injEq, Option.some.injEq] at h
    obtain ⟨h1, h2⟩ := h
    have hr : r = .ok () := (map_exceptions_ok_iff writeExcMap r ()).1 h1
    rw [hr] at hsl
    have hh := sendLoop_ok_handed st.sock (tget t "write") evs d tr' hsl
    rw [← h2]
    simpa [handedBytes, acceptedOf] using hh

/-- C1 witness: a concrete two-chunk write whose accepted chunks rebuild
the buffer. -/
theorem write_success_hands_over_exactly_witness :
    handedBytes (SyncSocketStream.write ⟨⟨1, false⟩, false, false⟩ [10, 20, 30]
      [("write", some 5)] [.ok 2, .ok 9]).2 = [10, 20, 30] :=
  write_success_hands_over_exactly ⟨⟨1, false⟩, false, false⟩ [10, 20, 30]
    [("write", some 5)] [.ok 2, .ok 9] _ rfl

/-- C9: a `write` of the empty byte-sequence acquires and releases the
write lock, performs no transport call whatsoever (no timeout applied, no
send issued), and succeeds — for every stream, including one whose handle
is already closed. -/
theorem empty_write_no_transport (st : SyncSocketStream) (t : TimeoutDict)
    (evs : List SendRes) :
    SyncSocketStream.write st [] t evs =
      (some (.ok ()), [.acqWrite, .relWrite]) := by
  cases evs <;> rfl

/-- C4 (amended): `close()` marks the handle closed; on a closed handle
every subsequent `read` fails with `ReadError` and every `write` of a
nonempty buffer fails with `WriteError`; only the empty `write`, which
performs no transport call, succeeds. -/
theorem closed_stream_ops_fail :
    (∀ (st : SyncSocketStream) (res : CloseRes),
        ((SyncSocketStream.close st res).1.2).sock.closed = true) ∧
    (∀ (st : SyncSocketStream) (n : Nat) (t : TimeoutDict) (res : RecvRes),
        st.sock.closed = true →
        (SyncSocketStream.read st n t res).1 = .error (.httpcore .ReadError)) ∧
    (∀ (st : SyncSocketStream) (b : Nat) (bs : Bytes) (t : TimeoutDict)
        (evs : List SendRes), st.sock.closed = true →
        (SyncSocketStream.write st (b :: bs) t evs).1 =
          some (.error (.httpcore .WriteError))) := by
  refine ⟨?_, ?_, ?_⟩
  · intro st res
    simp [SyncSocketStream.close]
  · intro st n t res h
    simp [SyncSocketStream.read, h, map_exceptions, readExcMap]
  · intro st b bs t evs h
    rw [write_eq, sendLoop_cons_closed st.sock (tget t "write") evs b bs h]
    rfl

/-- C4 witness: on a concrete closed stream, `read` yields `ReadError` and
a nonempty `write` yields `WriteError`. -/
theorem closed_stream_ops_fail_witness :
    (SyncSocketStream.read ⟨⟨2, true⟩, false, false⟩ 4 [] (.ok [9])).1 =
      .error (.httpcore .ReadError) ∧
    (SyncSocketStream.write ⟨⟨2, true⟩, false, false⟩ [1] [] [.ok 1]).1 =
      some (.error (.httpcore .WriteError)) :=
  ⟨closed_stream_ops_fail.2.1 ⟨⟨2, true⟩, false, false⟩ 4 [] (.ok [9]) rfl,
   closed_stream_ops_fail.2.2 ⟨⟨2, true⟩, false, false⟩ 1 [] [] [.ok 1] rfl⟩

/-- C4 counterexample: after `close()` has completed, a `write` of the
empty byte-sequence still returns successfully, so it is not the case that
every subsequent read or write on a closed stream fails. -/
theorem closed_stream_empty_write_cex :
    (SyncSocketStream.write
      ((SyncSocketStream.close ⟨⟨7, false⟩, false, false⟩ .ok).1.2)
      [] [] []).1 = some (.ok ()) := rfl

/-- C5 (amended): `is_connection_dropped` polls the handle with timeout `0`
(never blocking) and takes no lock; on a stream whose handle is not closed
it immediately returns the boolean that is true iff data is readable; on a
closed handle, however, the poll rejects the invalid descriptor and the
call raises an unmapped `ValueError` instead of returning a boolean. -/
theorem is_connection_dropped_nonblocking :
    ∀ (st : SyncSocketStream) (readable : Bool),
      (SyncSocketStream.is_connection_dropped st readable).2 =
        [.selectEvt st.sock.fd 0] ∧
      (∀ e ∈ (SyncSocketStream.is_connection_dropped st readable).2,
        isLockEvt e = false) ∧
      (st.sock.closed = false →
        (SyncSocketStream.is_connection_dropped st readable).1 = .ok readable) ∧
      (st.sock.closed = true →
        (SyncSocketStream.is_connection_dropped st readable).1 =
          .error .valueError) := by
  intro st readable
  cases hc : st.sock.closed <;>
    simp [SyncSocketStream.is_connection_dropped, hc, isLockEvt]

/-- C5 witness: on a concrete open stream the probe returns the
readability boolean. -/
theorem is_connection_dropped_nonblocking_witness :
    (SyncSocketStream.is_connection_dropped ⟨⟨3, false⟩, false, false⟩ true).1 =
      .ok true :=
  (is_connection_dropped_nonblocking ⟨⟨3, false⟩, false, false⟩ true).2.2.1 rfl

/-- C5 counterexample: on a stream closed by `close()`, the probe fails
(CPython's `select` rejects the closed, negative descriptor) instead of
returning a boolean — refuting "never fails, in every state including
after close". -/
theorem is_connection_dropped_after_close_cex :
    (SyncSocketStream.is_connection_dropped
      ((SyncSocketStream.close ⟨⟨3, false⟩, false, false⟩ .ok).1.2) false).1 =
      .error .valueError := rfl

/-- C8: when an encryption context is supplied and socket creation,
connect and handshake succeed, the handshake is invoked on the
already-connected handle `fd`, after the connect call, with the decoded
destination host for identity verification; exactly one timeout — the
`connect` one — was applied (no separate handshake deadline); and the
handle the handshake produced is wrapped in a new stream whose two locks
are fresh and unheld. -/
theorem tls_upgrade_shape :
    ∀ (host hd : Bytes) (port : Nat) (ctx : SSLContext) (t : TimeoutDict)
      (fd fd2 : Nat),
      decodeAscii host = some hd →
      SyncBackend.open_tcp_stream host port (some ctx) t ⟨.ok fd, .ok, .ok fd2⟩ =
        (.ok ⟨⟨fd2, false⟩, false, false⟩,
          [.createEvt fd, .settimeoutEvt fd (tget t "connect"),
           .connectEvt fd hd port, .wrapEvt fd hd]) := by
  intro host hd port ctx t fd fd2 hdec
  simp [SyncBackend.open_tcp_stream, hdec, map_exceptions]

/-- C8 witness: a concrete successful encrypted `open`. -/
theorem tls_upgrade_shape_witness :
    SyncBackend.open_tcp_stream [104] 80 (some ⟨⟩) [("connect", some 9)]
      ⟨.ok 4, .ok, .ok 5⟩ =
      (.ok ⟨⟨5, false⟩, false, false⟩,
        [.createEvt 4, .settimeoutEvt 4 (some 9), .connectEvt 4 [104] 80,
         .wrapEvt 4 [104]]) :=
  tls_upgrade_shape [104] [104] 80 ⟨⟩ [("connect", some 9)] 4 5 rfl

/-- C10: the host byte-string is decoded as ASCII before the connect call;
a host with a byte outside the ASCII range makes `open` fail with the raw
`UnicodeDecodeError` — which is none of the seven semantic kinds, the
exception map covering only transport-level failures — and no connect
system call is ever issued. -/
theorem nonascii_host_decode_error :
    ∀ (host : Bytes) (port : Nat) (ctx : Option SSLContext) (t : TimeoutDict)
      (fd : Nat) (cn : ConnRes) (w : WrapRes) (b : Nat),
      b ∈ host → 128 ≤ b →
      (SyncBackend.open_tcp_stream host port ctx t ⟨.ok fd, cn, w⟩).1 =
        .error .decodeError ∧
      (∀ h : HttpcoreError, PyExc.decodeError ≠ PyExc.httpcore h) ∧
      (∀ e ∈ (SyncBackend.open_tcp_stream host port ctx t ⟨.ok fd, cn, w⟩).2,
        isConnectEvt e = false) := by
  intro host port ctx t fd cn w b hb hge
  have hall : host.all (fun x => x < 128) = false := by
    rw [List.all_eq_false]
    exact ⟨b, hb, by simpa using hge⟩
  have hdec : decodeAscii host = none := by simp [decodeAscii, hall]
  refine ⟨?_, ?_, ?_⟩
  · simp [SyncBackend.open_tcp_stream, hdec, map_exceptions, connectExcMap]
  · intro h
    simp
  · intro e he
    simp [SyncBackend.open_tcp_stream, hdec] at he
    rcases he with he | he <;> simp [he, isConnectEvt]

/-- C10 witness: a concrete non-ASCII host is rejected with the unmapped
decode error. -/
theorem nonascii_host_decode_error_witness :
    (SyncBackend.open_tcp_stream [104, 200] 80 none [] ⟨.ok 4, .ok, .ok 5⟩).1 =
      .error .decodeError :=
  (nonascii_host_decode_error [104, 200] 80 none [] 4 .ok (.ok 5) 200
    (by simp) (by simp)).1

/-- C2: error taxonomy: every transport-level failure surfaced by `read`,
`write`, `close` or `open` is one of the seven semantic kinds, matching the
operation's phase, and the mapping is exact in both directions: a timeout
expiry — on `recv`, on any chunk of the send loop (first or mid-loop), on
`connect` or on the handshake — surfaces as the phase's timeout kind, and
any other socket-level failure — on `recv`, on any chunk of the send loop,
on socket creation, on `connect`, on the handshake or on `close` — surfaces
as the phase's generic (non-timeout) kind.  During `open` the only escape
from the seven kinds is the non-transport ASCII decode error: with a
decodable host every `open` failure is `ConnectTimeout` or `ConnectError`. -/
theorem error_taxonomy :
    (∀ (st : SyncSocketStream) (n : Nat) (t : TimeoutDict) (res : RecvRes)
        (e : PyExc), (SyncSocketStream.read st n t res).1 = .error e →
        e = .httpcore .ReadTimeout ∨ e = .httpcore .ReadError) ∧
    (∀ (st : SyncSocketStream) (d : Bytes) (t : TimeoutDict)
        (evs : List SendRes) (e : PyExc),
        (SyncSocketStream.write st d t evs).1 = some (.error e) →
        e = .httpcore .WriteTimeout ∨ e = .httpcore .WriteError) ∧
    (∀ (st : SyncSocketStream) (res : CloseRes) (e : PyExc),
        (SyncSocketStream.close st res).1.1 = .error e →
        e = .httpcore .CloseError) ∧
    (∀ (host : Bytes) (port : Nat) (ctx : Option SSLContext) (t : TimeoutDict)
        (o : ConnectOracle) (e : PyExc),
        (SyncBackend.open_tcp_stream host port ctx t o).1 = .error e →
        e = .httpcore .ConnectTimeout ∨ e = .httpcore .ConnectError ∨
          e = .decodeError) ∧
    (∀ (host : Bytes) (port : Nat) (ctx : Option SSLContext) (t : TimeoutDict)
        (o : ConnectOracle) (e : PyExc) (hd : Bytes),
        decodeAscii host = some hd →
        (SyncBackend.open_tcp_stream host port ctx t o).1 = .error e →
        e = .httpcore .ConnectTimeout ∨ e = .httpcore .ConnectError) ∧
    (∀ (st : SyncSocketStream) (n : Nat) (t : TimeoutDict),
        st.sock.closed = false →
        (SyncSocketStream.read st n t .timeout).1 =
          .error (.httpcore .ReadTimeout)) ∧
    (∀ (st : SyncSocketStream) (b : Nat) (bs : Bytes) (t : TimeoutDict)
        (evs : List SendRes), st.sock.closed = false →
        (SyncSocketStream.write st (b :: bs) t (.timeout :: evs)).1 =
          some (.error (.httpcore .WriteTimeout))) ∧
    (∀ (host hd : Bytes) (port : Nat) (ctx : Option SSLContext)
        (t : TimeoutDict) (fd : Nat) (w : WrapRes),
        decodeAscii host = some hd →
        (SyncBackend.open_tcp_stream host port ctx t ⟨.ok fd, .timeout, w⟩).1 =
          .error (.httpcore .ConnectTimeout)) ∧
    (∀ (st : SyncSocketStream) (n : Nat) (t : TimeoutDict),
        (SyncSocketStream.read st n t .error).1 =
          .error (.httpcore .ReadError)) ∧
    (∀ (st : SyncSocketStream) (d : Bytes) (t : TimeoutDict)
        (evs : List SendRes),
        ((SyncSocketStream.write st d t evs).1 =
            some (.error (.httpcore .WriteTimeout)) ↔
          (sendLoop st.sock (tget t "write") evs d).1 =
            some (.error .timeout)) ∧
        ((SyncSocketStream.write st d t evs).1 =
            some (.error (.httpcore .WriteError)) ↔
          (sendLoop st.sock (tget t "write") evs d).1 =
            some (.error .oserror))) ∧
    (∀ (st : SyncSocketStream) (b : Nat) (bs : Bytes) (t : TimeoutDict)
        (evs : List SendRes) (n : Nat), st.sock.closed = false →
        n < (b :: bs).length →
        (SyncSocketStream.write st (b :: bs) t (.ok n :: .timeout :: evs)).1 =
          some (.error (.httpcore .WriteTimeout))) ∧
    (∀ (st : SyncSocketStream) (b : Nat) (bs : Bytes) (t : TimeoutDict)
        (evs : List SendRes) (n : Nat), st.sock.closed = false →
        n < (b :: bs).length →
        (SyncSocketStream.write st (b :: bs) t (.ok n :: .error :: evs)).1 =
          some (.error (.httpcore .WriteError))) ∧
    (∀ (host hd : Bytes) (port : Nat) (ctx : Option SSLContext)
        (t : TimeoutDict) (fd : Nat) (w : WrapRes),
        decodeAscii host = some hd →
        (SyncBackend.open_tcp_stream host port ctx t ⟨.ok fd, .error, w⟩).1 =
          .error (.httpcore .ConnectError)) ∧
    (∀ (host : Bytes) (port : Nat) (ctx : Option SSLContext) (t : TimeoutDict)
        (cn : ConnRes) (w : WrapRes),
        (SyncBackend.open_tcp_stream host port ctx t ⟨.error, cn, w⟩).1 =
          .error (.httpcore .ConnectError)) ∧
    (∀ (host hd : Bytes) (port : Nat) (ctx0 : SSLContext) (t : TimeoutDict)
        (fd : Nat), decodeAscii host = some hd →
        (SyncBackend.open_tcp_stream host port (some ctx0) t
          ⟨.ok fd, .ok, .timeout⟩).1 = .error (.httpcore .ConnectTimeout)) ∧
    (∀ (host hd : Bytes) (port : Nat) (ctx0 : SSLContext) (t : TimeoutDict)
        (fd : Nat), decodeAscii host = some hd →
        (SyncBackend.open_tcp_stream host port (some ctx0) t
          ⟨.ok fd, .ok, .error⟩).1 = .error (.httpcore .ConnectError)) ∧
    (∀ (st : SyncSocketStream), st.sock.closed = false →
        (SyncSocketStream.close st .error).1.1 =
          .error (.httpcore .CloseError)) := by
  refine ⟨?_, ?_, ?_, ?_, ?_, ?_, ?_, ?_, ?_, ?_, ?_, ?_, ?_, ?_, ?_, ?_, ?_⟩
  · intro st n t res e h
    simp only [SyncSocketStream.read] at h
    by_cases hc : st.sock.closed = true
    · simp [hc, map_exceptions, readExcMap] at h
      exact Or.inr h.symm
    · cases res <;> simp [hc, map_exceptions, readExcMap] at h
      · exact Or.inl h.symm
      · exact Or.inr h.symm
  · intro st d t evs e h
    rw [write_eq] at h
    rcases hsl : sendLoop st.sock (tget t "write") evs d with ⟨o, tr'⟩
    rw [hsl] at h
    cases o with
    | none => simp at h
    | some r =>
      simp only [Option.some.injEq] at h
      cases r with
      | ok a => rw [map_exceptions] at h; simp at h
      | error e0 =>
        have hk : e0 = .timeout ∨ e0 = .oserror := by
          apply sendLoop_error_kinds st.sock (tget t "write") evs d e0
          rw [hsl]
        rcases hk with hk | hk <;> subst hk <;>
          (simp [map_exceptions, writeExcMap] at h; simp [← h])
  · intro st res e h
    by_cases hc : st.sock.closed = true <;> cases res <;>
      (simp [SyncSocketStream.close, hc, map_exceptions, closeExcMap] at h;
        try simp [← h])
  · intro host port ctx t o e h
    obtain ⟨c, cn, w⟩ := o
    rcases hdec : decodeAscii host with - | hd <;>
      cases c <;> cases cn <;> cases ctx <;> cases w <;>
      simp [SyncBackend.open_tcp_stream, hdec, map_exceptions, connectExcMap]
        at h <;>
      simp [← h]
  · intro host port ctx t o e hd hdec h
    obtain ⟨c, cn, w⟩ := o
    cases c <;> cases cn <;> cases ctx <;> cases w <;>
      simp [SyncBackend.open_tcp_stream, hdec, map_exceptions, connectExcMap]
        at h <;>
      simp [← h]
  · intro st n t hc
    simp [SyncSocketStream.read, hc, map_exceptions, readExcMap]
  · intro st b bs t evs hc
    rw [write_eq, sendLoop_cons_timeout st.sock (tget t "write") evs b bs hc]
    rfl
  · intro host hd port ctx t fd w hdec
    cases ctx <;>
      simp [SyncBackend.open_tcp_stream, hdec, map_exceptions, connectExcMap]
  · intro st n t
    cases hc : st.sock.closed <;>
      simp [SyncSocketStream.read, hc, map_exceptions, readExcMap]
  · intro st d t evs
    rw [write_eq]
    cases hsl : (sendLoop st.sock (tget t "write") evs d).1 with
    | none => simp
    | some r =>
      cases r with
      | ok a => cases a; simp [map_exceptions]
      | error e0 =>
        rcases sendLoop_error_kinds st.sock (tget t "write") evs d e0 hsl
            with hk | hk <;>
          subst hk <;> simp [map_exceptions, writeExcMap]
  · intro st b bs t evs n hc hlt
    have hmin : min n (b :: bs).length = n := Nat.min_eq_left (Nat.le_of_lt hlt)
    have hne : (b :: bs).drop (min n (b :: bs).length) ≠ [] := by
      rw [hmin]
      intro hnil
      have hlen := congrArg List.length hnil
      rw [List.length_drop] at hlen
      simp only [List.length_nil] at hlen
      omega
    cases hdrop : (b :: bs).drop (min n (b :: bs).length) with
    | nil => exact absurd hdrop hne
    | cons c cs =>
      rw [write_eq,
        sendLoop_cons_ok st.sock (tget t "write") (.timeout :: evs) n b bs hc,
        hdrop, sendLoop_cons_timeout st.sock (tget t "write") evs c cs hc]
      rfl
  · intro st b bs t evs n hc hlt
    have hmin : min n (b :: bs).length = n := Nat.min_eq_left (Nat.le_of_lt hlt)
    have hne : (b :: bs).drop (min n (b :: bs).length) ≠ [] := by
      rw [hmin]
      intro hnil
      have hlen := congrArg List.length hnil
      rw [List.length_drop] at hlen
      simp only [List.length_nil] at hlen
      omega
    cases hdrop : (b :: bs).drop (min n (b :: bs).length) with
    | nil => exact absurd hdrop hne
    | cons c cs =>
      rw [write_eq,
        sendLoop_cons_ok st.sock (tget t "write") (.error :: evs) n b bs hc,
        hdrop, sendLoop_cons_error st.sock (tget t "write") evs c cs hc]
      rfl
  · intro host hd port ctx t fd w hdec
    cases ctx <;>
      simp [SyncBackend.open_tcp_stream, hdec, map_exceptions, connectExcMap]
  · intro host port ctx t cn w
    simp [SyncBackend.open_tcp_stream, map_exceptions, connectExcMap]
  · intro host hd port ctx0 t fd hdec
    simp [SyncBackend.open_tcp_stream, hdec, map_exceptions, connectExcMap]
  · intro host hd port ctx0 t fd hdec
    simp [SyncBackend.open_tcp_stream, hdec, map_exceptions, connectExcMap]
  · intro st hc
    simp [SyncSocketStream.close, hc, map_exceptions, closeExcMap]

/-- C2 witness: a concrete read timeout, a first-chunk write timeout, a
mid-loop (second-chunk) write timeout, and a concrete handshake hard error
are surfaced as `ReadTimeout`, `WriteTimeout`, `WriteTimeout` and
`ConnectError` respectively. -/
theorem error_taxonomy_witness :
    (SyncSocketStream.read ⟨⟨1, false⟩, false, false⟩ 3 [] .timeout).1 =
      .error (.httpcore .ReadTimeout) ∧
    (SyncSocketStream.write ⟨⟨1, false⟩, false, false⟩ [5] [] [.timeout]).1 =
      some (.error (.httpcore .WriteTimeout)) ∧
    (SyncSocketStream.write ⟨⟨1, false⟩, false, false⟩ [10, 20, 30] []
      [.ok 2, .timeout]).1 = some (.error (.httpcore .WriteTimeout)) ∧
    (SyncBackend.open_tcp_stream [104] 80 (some ⟨⟩) []
      ⟨.ok 4, .ok, .error⟩).1 = .error (.httpcore .ConnectError) :=
  ⟨error_taxonomy.2.2.2.2.2.1 ⟨⟨1, false⟩, false, false⟩ 3 [] rfl,
   error_taxonomy.2.2.2.2.2.2.1 ⟨⟨1, false⟩, false, false⟩ 5 [] [] [] rfl,
   error_taxonomy.2.2.2.2.2.2.2.2.2.2.1 ⟨⟨1, false⟩, false, false⟩ 10 [20, 30]
     [] [] 2 rfl (by decide),
   error_taxonomy.2.2.2.2.2.2.2.2.2.2.2.2.2.2.2.1 [104] [104] 80 ⟨⟩ [] 4 rfl⟩

/-- C3: `open` never yields a partial stream: a returned stream implies
socket creation, connect, host decode and (when an encryption context was
supplied) the handshake all succeeded; a failure of socket creation, of
connect, or of the handshake makes `open` raise; and whenever `open`
raises, no stream is returned — the error result carries no handle. -/
theorem open_no_partial_stream :
    ∀ (host : Bytes) (port : Nat) (ctx : Option SSLContext) (t : TimeoutDict)
      (o : ConnectOracle),
      (∀ st tr, SyncBackend.open_tcp_stream host port ctx t o = (.ok st, tr) →
        (∃ fd, o.create = .ok fd) ∧ o.conn = .ok ∧ decodeAscii host ≠ none ∧
          (ctx ≠ none → ∃ fd2, o.wrap = .ok fd2)) ∧
      (o.create = .error →
        exceptRaised (SyncBackend.open_tcp_stream host port ctx t o).1 = true) ∧
      (o.conn ≠ .ok →
        exceptRaised (SyncBackend.open_tcp_stream host port ctx t o).1 = true) ∧
      (ctx ≠ none → o.wrap = .timeout ∨ o.wrap = .error →
        exceptRaised (SyncBackend.open_tcp_stream host port ctx t o).1 = true) ∧
      (∀ e, (SyncBackend.open_tcp_stream host port ctx t o).1 = .error e →
        ∀ st, (SyncBackend.open_tcp_stream host port ctx t o).1 ≠ .ok st) := by
  intro host port ctx t o
  obtain ⟨c, cn, w⟩ := o
  refine ⟨?_, ?_, ?_, ?_, ?_⟩
  · intro st tr h
    rcases hdec : decodeAscii host with - | hd <;>
      cases c <;> cases cn <;> cases ctx <;> cases w <;>
      simp_all [SyncBackend.open_tcp_stream, map_exceptions, connectExcMap]
  · intro hcreate
    subst hcreate
    simp [SyncBackend.open_tcp_stream, map_exceptions, connectExcMap,
      exceptRaised]
  · intro hconn
    cases c <;> cases cn <;> rcases hdec : decodeAscii host with - | hd <;>
      simp_all [SyncBackend.open_tcp_stream, map_exceptions, connectExcMap,
        exceptRaised]
  · intro hctx hw
    rcases ctx with - | ctx0
    · exact absurd rfl hctx
    · rcases hw with hw | hw <;> subst hw <;>
        cases c <;> cases cn <;> rcases hdec : decodeAscii host with - | hd <;>
        simp_all [SyncBackend.open_tcp_stream, map_exceptions, connectExcMap,
          exceptRaised]
  · intro e he st hok
    rw [he] at hok
    exact Except.noConfusion hok

/-- C3 witness: a concrete failed connect raises and returns no stream. -/
theorem open_no_partial_stream_witness :
    exceptRaised (SyncBackend.open_tcp_stream [104] 80 none []
      ⟨.ok 4, .error, .ok 5⟩).1 = true :=
  (open_no_partial_stream [104] 80 none [] ⟨.ok 4, .error, .ok 5⟩).2.2.1
    (by simp)

/-- C6: each operation applies to the handle exactly the deadline stored
under its own phase key: `read` applies the `read` entry once, `open` the
`connect` entry, and `write` re-applies the same per-call `write` entry
before every chunk (a per-call setting, not a remaining budget); a key
that is missing or stored as null yields `none`, the
indefinitely-blocking setting. -/
theorem deadline_per_phase :
    (∀ (st : SyncSocketStream) (n : Nat) (t : TimeoutDict) (res : RecvRes),
        settimeoutVals (SyncSocketStream.read st n t res).2 = [tget t "read"]) ∧
    (∀ (st : SyncSocketStream) (d : Bytes) (t : TimeoutDict)
        (evs : List SendRes) (v : Option Nat),
        v ∈ settimeoutVals (SyncSocketStream.write st d t evs).2 →
        v = tget t "write") ∧
    (∀ (host : Bytes) (port : Nat) (ctx : Option SSLContext) (t : TimeoutDict)
        (o : ConnectOracle) (v : Option Nat),
        v ∈ settimeoutVals (SyncBackend.open_tcp_stream host port ctx t o).2 →
        v = tget t "connect") ∧
    (∀ (t : TimeoutDict) (k : String),
        List.lookup k t = none ∨ List.lookup k t = some none →
        tget t k = none) := by
  refine ⟨?_, ?_, ?_, ?_⟩
  · intro st n t res
    simp [SyncSocketStream.read, settimeoutVals]
  · intro st d t evs v hv
    rw [write_eq] at hv
    rcases hsl : sendLoop st.sock (tget t "write") evs d with ⟨o, tr'⟩
    rw [hsl] at hv
    have hv' : v ∈ settimeoutVals tr' := by
      cases o <;> simpa [settimeoutVals] using hv
    apply sendLoop_settimeout_vals st.sock (tget t "write") evs d v
    rw [hsl]
    exact hv'
  · intro host port ctx t o v hv
    obtain ⟨c, cn, w⟩ := o
    rcases hdec : decodeAscii host with - | hd <;>
      cases c <;> cases cn <;> cases ctx <;> cases w <;>
      simp_all [SyncBackend.open_tcp_stream, settimeoutVals]
  · intro t k h
    rcases h with h | h <;> simp [tget, h]

/-- C6 witness: a concrete two-chunk write applies the stored `write`
deadline, and a dictionary storing null under `read` yields the
indefinitely-blocking setting. -/
theorem deadline_per_phase_witness :
    ((some 5 : Option Nat) = tget [("write", some 5)] "write") ∧
    tget [("read", none)] "read" = none :=
  ⟨deadline_per_phase.2.1 ⟨⟨1, false⟩, false, false⟩ [10, 20, 30]
      [("write", some 5)] [.ok 2, .ok 9] (some 5) (by decide),
   deadline_per_phase.2.2.2 [("read", none)] "read" (Or.inr rfl)⟩

/-- C7: `read` performs its transport calls strictly between acquiring and
releasing the read-exclusion lock; `write` (on every exit, error exits
included) and `close` between acquiring and releasing the write-exclusion
lock; the events in between are never lock operations, so the two
directions use disjoint locks and one reader plus one writer can proceed
concurrently. -/
theorem lock_discipline :
    (∀ (st : SyncSocketStream) (n : Nat) (t : TimeoutDict) (res : RecvRes),
        (SyncSocketStream.read st n t res).2 =
          .acqRead ::
            [.settimeoutEvt st.sock.fd (tget t "read"),
             .recvEvt st.sock.fd n] ++ [.relRead]) ∧
    (∀ (st : SyncSocketStream) (d : Bytes) (t : TimeoutDict)
        (evs : List SendRes) (r : Except PyExc Unit),
        (SyncSocketStream.write st d t evs).1 = some r →
        (SyncSocketStream.write st d t evs).2 =
          .acqWrite :: (sendLoop st.sock (tget t "write") evs d).2 ++
            [.relWrite]) ∧
    (∀ (sock : Socket) (wt : Option Nat) (evs : List SendRes) (d : Bytes)
        (e : TraceEvt), e ∈ (sendLoop sock wt evs d).2 →
        isLockEvt e = false) ∧
    (∀ (st : SyncSocketStream) (res : CloseRes),
        (SyncSocketStream.close st res).2 =
          .acqWrite :: [.closeEvt st.sock.fd] ++ [.relWrite]) ∧
    (∀ (fd n : Nat) (v : Option Nat),
        isLockEvt (.settimeoutEvt fd v) = false ∧
        isLockEvt (.recvEvt fd n) = false ∧ isLockEvt (.closeEvt fd) = false) := by
  refine ⟨?_, ?_, ?_, ?_, ?_⟩
  · intro st n t res
    rfl
  · intro st d t evs r h
    rw [write_eq] at h ⊢
    cases hsl : (sendLoop st.sock (tget t "write") evs d).1 with
    | none => rw [hsl] at h; simp at h
    | some r' => rfl
  · intro sock wt evs d e he
    exact sendLoop_no_lock sock wt evs d e he
  · intro st res
    rfl
  · intro fd n v
    exact ⟨rfl, rfl, rfl⟩

/-- C7 witness: a concrete erroring write still releases the write lock
around its transport calls. -/
theorem lock_discipline_witness :
    (SyncSocketStream.write ⟨⟨1, false⟩, false, false⟩ [9] [] [.error]).2 =
      .acqWrite ::
        (sendLoop ⟨1, false⟩ (tget [] "write") [.error] [9]).2 ++
        [.relWrite] :=
  lock_discipline.2.1 ⟨⟨1, false⟩, false, false⟩ [9] [] [.error]
    (.error (.httpcore .WriteError)) rfl
